import Mathlib

/-!
Verification of `custom_shelf.py` (repository GuillaumeRoeder/custom_shelf).

The development shallowly embeds the single class `CustomShelf` of
`src/custom_shelf.py`.  Filenames and paths are Lean `String`s, the local
filesystem is an explicit tree (`FSNode`), the Maya UI is an explicit record
of created widgets (`MayaUI`), and every fallible operation (anything that can
raise a Python exception, such as `os.listdir` on a regular file or a dict
`KeyError`) returns `Except String`.

The Python `re` patterns used by the source contain unescaped dots, which match
any single character except a newline; the helpers below reproduce exactly
that semantics.  Injected names (folder or tool names interpolated into a pattern via
str.format) are modelled as literal text, which agrees with Python whenever the injected name
contains no regex metacharacter (true of every input considered here).
Paths are POSIX-style relative paths without a leading slash, matching the
`os.path` behaviour on the inputs the program manipulates.
-/

/-- Split a character list on `/` separators; models Python `str.split("/")`. -/
def splitSlash : List Char → List (List Char)
  | [] => [[]]
  | c :: cs =>
    match splitSlash cs with
    | [] => [[]]
    | g :: gs => if c = '/' then [] :: g :: gs else (c :: g) :: gs

/-- Rejoin groups with `/`; right inverse of `splitSlash`. -/
def joinSlashAux : List (List Char) → List Char
  | [] => []
  | [g] => g
  | g :: g2 :: gs => g ++ '/' :: joinSlashAux (g2 :: gs)

/-- Models `os.path.basename`: the text after the last `/`. -/
def basename (p : String) : String :=
  String.mk ((splitSlash p.data).getLastD [])

/-- Models `os.path.dirname`: the text before the last `/`. -/
def dirname (p : String) : String :=
  String.mk (joinSlashAux (splitSlash p.data).dropLast)

/-- Models `os.path.join` for the POSIX path shapes used by the program. -/
def pjoin (a b : String) : String :=
  if a.data = [] then b
  else if b.data.headD ' ' = '/' then b
  else if a.data.getLastD ' ' = '/' then String.mk (a.data ++ b.data)
  else String.mk (a.data ++ '/' :: b.data)

/-- Models Python `s.split(".")[0]`: the text before the first dot. -/
def takeBeforeDot (s : String) : String :=
  String.mk (s.data.takeWhile (fun c => c ≠ '.'))

/-- Models Python `s.replace("_", " ")`. -/
def underscoresToSpaces (s : String) : String :=
  String.mk (s.data.map (fun c => if c = '_' then ' ' else c))

/-- Models `re.search("<pre>.<suf>$", s)` for literal `pre`/`suf`: `s` ends
with `pre`, then one arbitrary character other than a newline, then `suf`.
The unescaped dot of the source patterns is kept as "any character". -/
def regexLitDotLit (pre suf : String) (s : String) : Bool :=
  let r := s.data.reverse
  suf.data.reverse.isPrefixOf r &&
    (match r.drop suf.data.length with
     | c :: rest => c ≠ '\n' && pre.data.reverse.isPrefixOf rest
     | [] => false)

/-- Models `re.search(".<suf>$", s)` (unescaped leading dot). -/
def regexDotThen (suf : String) (s : String) : Bool :=
  regexLitDotLit "" suf s

/-- Models `re.search("<pre><suf>$", s)` for literal text: a plain suffix test. -/
def regexLitLit (pre suf : String) (s : String) : Bool :=
  ((pre ++ suf).data.reverse).isPrefixOf s.data.reverse

/-- Models `re.sub(".<suf>$", "", s)`: the single `$`-anchored match, when
present, is removed (the matched text is one arbitrary character plus `suf`). -/
def subDotSuffix (suf : String) (s : String) : String :=
  if regexDotThen suf s then
    String.mk (s.data.take (s.data.length - (suf.data.length + 1)))
  else s

/-- Models the source line 55 / 73 filter: re.search on (.py|.mel)$. -/
def scriptExtMatch (s : String) : Bool :=
  regexDotThen "py" s || regexDotThen "mel" s

/-- Models the source line 55 / 73 filter: re.search on (_dcc.py|_dcc.mel)$. -/
def dccSuffixMatch (s : String) : Bool :=
  regexLitDotLit "_dcc" "py" s || regexLitDotLit "_dcc" "mel" s

/-- Models source line 133: re.search on the pattern (tool_name)(.py|.mel)$
built by str.format. -/
def popupNameMatch (tool_name s : String) : Bool :=
  regexLitDotLit tool_name "py" s || regexLitDotLit tool_name "mel" s

/-- Models source line 225: re.search on the pattern
(tool_name)(.png|.jpg|jpeg|.svg)$ built by str.format (note the source
pattern has no dot before jpeg). -/
def iconNameMatch (tool_name s : String) : Bool :=
  regexLitDotLit tool_name "png" s || regexLitDotLit tool_name "jpg" s ||
  regexLitLit tool_name "jpeg" s || regexLitDotLit tool_name "svg" s

/-- Models source line 148: re.search on __init__.py$ applied to the path. -/
def initPyMatch (s : String) : Bool :=
  regexLitDotLit "__init__" "py" s

/-- Models Python `list.remove(x)`: delete the first occurrence of the value. -/
def listRemoveFirst (x : String) : List String → List String
  | [] => []
  | y :: ys => if y = x then ys else y :: listRemoveFirst x ys

/-- Models the in-place removal loop of the source, `for item in l: if bad item: l.remove(item)`,
(lines 72-74): Python iterates by index, so a removal shifts the next element
under the cursor and that element is never examined.  `fuel` bounds the number
of iterations; starting it at `l.length` is exact because the index grows by
one per iteration and the list never grows. -/
def pyRemoveLoop (bad : String → Bool) : Nat → Nat → List String → List String
  | 0, _, l => l
  | fuel + 1, i, l =>
    if h : i < l.length then
      let x := l.get ⟨i, h⟩
      pyRemoveLoop bad fuel (i + 1) (if bad x then listRemoveFirst x l else l)
    else l

/-- The whole mutating filter loop of `get_popup_tools_from_dir`. -/
def pyRemoveAll (bad : String → Bool) (l : List String) : List String :=
  pyRemoveLoop bad l.length 0 l

/-- Models the Python `<` on strings: lexicographic comparison by code point. -/
def charListLt : List Char → List Char → Bool
  | [], [] => false
  | [], _ :: _ => true
  | _ :: _, [] => false
  | a :: as, b :: bs =>
    if a.toNat < b.toNat then true
    else if b.toNat < a.toNat then false
    else charListLt as bs

def pyStrLt (a b : String) : Bool := charListLt a.data b.data

/-- Stable ascending insertion, for `list.sort()` on strings. -/
def insertStr (x : String) : List String → List String
  | [] => [x]
  | y :: ys => if pyStrLt x y then x :: y :: ys else y :: insertStr x ys

/-- Models Python `list.sort()` on strings (lexicographic by code point). -/
def sortStrings : List String → List String
  | [] => []
  | x :: xs => insertStr x (sortStrings xs)

/-- First value bound to `k` in an association list (Python dict lookup). -/
def assocGet (l : List (String × α)) (k : String) : Option α :=
  match l.find? (fun e => e.1 = k) with
  | some e => some e.2
  | none => none

/-- Python dict assignment `d[k] = v`: an existing key keeps its position,
a new key is appended (insertion order). -/
def assocSet (l : List (String × α)) (k : String) (v : α) : List (String × α) :=
  if l.any (fun e => e.1 = k) then
    l.map (fun e => if e.1 = k then (k, v) else e)
  else l ++ [(k, v)]

/-- A node of the filesystem: a regular file or a directory whose entries are
listed in `os.listdir` order. -/
inductive FSNode where
  | file : FSNode
  | dir : List (String × FSNode) → FSNode

/-- Walk a split path down the tree. -/
def resolveParts : List String → FSNode → Option FSNode
  | [], n => some n
  | p :: ps, FSNode.dir es =>
    match es.find? (fun e => e.1 = p) with
    | some e => resolveParts ps e.2
    | none => none
  | _ :: _, FSNode.file => none

/-- Resolve a path string against the filesystem root. -/
def resolvePath (fs : FSNode) (p : String) : Option FSNode :=
  resolveParts ((splitSlash p.data).map String.mk) fs

/-- Models `os.path.exists`. -/
def pathExists (fs : FSNode) (p : String) : Bool :=
  (resolvePath fs p).isSome

/-- Models `os.path.isdir`. -/
def pathIsDir (fs : FSNode) (p : String) : Bool :=
  match resolvePath fs p with
  | some (FSNode.dir _) => true
  | _ => false

/-- Models `os.listdir`: the entry names of a directory, in stored order;
a regular file or a missing path raises. -/
def listdirE (fs : FSNode) (p : String) : Except String (List String) :=
  match resolvePath fs p with
  | some (FSNode.dir es) => Except.ok (es.map (fun e => e.1))
  | some FSNode.file => Except.error "NotADirectoryError"
  | none => Except.error "FileNotFoundError"

/-- Create the directories along `parts` (helper of `makedirsPath`). -/
def makedirsParts : List String → FSNode → FSNode
  | [], n => n
  | p :: ps, FSNode.dir es =>
    if es.any (fun e => e.1 = p) then
      FSNode.dir (es.map (fun e => if e.1 = p then (p, makedirsParts ps e.2) else e))
    else
      FSNode.dir (es ++ [(p, makedirsParts ps (FSNode.dir []))])
  | _ :: _, FSNode.file => FSNode.file

/-- Models `os.makedirs` on a path that does not yet exist. -/
def makedirsPath (fs : FSNode) (p : String) : FSNode :=
  makedirsParts ((splitSlash p.data).map String.mk) fs

structure MayaButton where
  id : Nat
  label : String
  command : String
  image : String
  doubleClick : String
  parent : Option String
  deriving DecidableEq

structure MayaMenuItem where
  id : Nat
  label : String
  command : String
  sourceTag : String
  parentMenu : Nat
  deriving DecidableEq

structure MayaUI where
  shelves : List String
  buttons : List MayaButton
  menuItems : List MayaMenuItem
  separators : List (Option String)
  nextId : Nat
  deriving DecidableEq

def emptyUI : MayaUI :=
  { shelves := [], buttons := [], menuItems := [], separators := [], nextId := 0 }

/-- Models `cmds.shelfButton(l=.., command=.., image=.., parent=.., doubleClickCommand=..)`. -/
def shelfButtonNew (ui : MayaUI) (label command image doubleClick : String)
    (parent : Option String) : MayaUI × Nat :=
  ({ ui with
      buttons := ui.buttons ++
        [{ id := ui.nextId, label := label, command := command, image := image,
           doubleClick := doubleClick, parent := parent }],
      nextId := ui.nextId + 1 },
   ui.nextId)

/-- Models `cmds.menuItem(label=.., sourceType=.., parent=.., command=..)`. -/
def menuItemNew (ui : MayaUI) (label command sourceTag : String)
    (parentMenu : Nat) : MayaUI × Nat :=
  ({ ui with
      menuItems := ui.menuItems ++
        [{ id := ui.nextId, label := label, command := command,
           sourceTag := sourceTag, parentMenu := parentMenu }],
      nextId := ui.nextId + 1 },
   ui.nextId)

/-- Models `cmds.separator(..., parent=self.shelf)`. -/
def separatorNew (ui : MayaUI) (parent : Option String) : MayaUI :=
  { ui with separators := ui.separators ++ [parent] }

/-- Models `cmds.deleteUI(name)`: drop the shelf layout of that name together with
its children (the buttons parented to it and their popup-menu items). -/
def deleteShelfUI (ui : MayaUI) (name : String) : MayaUI :=
  let deadIds := (ui.buttons.filter (fun b => b.parent = some name)).map (fun b => b.id)
  { ui with
      shelves := ui.shelves.filter (fun s => s ≠ name),
      buttons := ui.buttons.filter (fun b => b.parent ≠ some name),
      menuItems := ui.menuItems.filter (fun i => ¬ i.parentMenu ∈ deadIds),
      separators := ui.separators.filter (fun s => s ≠ some name) }

/-- The instance attributes set in `CustomShelf.__init__` (lines 25-37).
Python dicts are association lists in insertion order. -/
structure CustomShelf where
  shelf_directory : String
  icon_path : String
  shelf_name : String
  categories : List String
  popup_tool_dict : List (String × List (String × List String))
  tool_paths : List (String × List String)
  popup_menus : List (String × Nat)
  shelf : Option String
  deriving DecidableEq

/-- The state a method acts on: the filesystem, the instance, the UI. -/
structure World where
  fs : FSNode
  st : CustomShelf
  ui : MayaUI

/-- Embeds `CustomShelf.get_tools_from_dir` (lines 45-56): flat tool files of one
category, filtered by extension and double-click suffix on the file NAME. -/
def get_tools_from_dir (fs : FSNode) (directory category : String) :
    Except String (List String) := do
  let category_dir := pjoin directory category
  let entries ← listdirE fs category_dir
  let keep := entries.filter (fun f => scriptExtMatch f && ¬ dccSuffixMatch f)
  pure (keep.map (fun f => pjoin category_dir f))

/-- Embeds `CustomShelf.get_popup_tools_from_dir` (lines 58-76): subdirectories of a
category with their contained file paths, filtered by the in-place removal
loop of the source (filter applied to the full PATH). -/
def get_popup_tools_from_dir (fs : FSNode) (directory category : String) :
    Except String (List (String × List String)) := do
  let category_dir := pjoin directory category
  let entries ← listdirE fs category_dir
  entries.foldlM
    (fun acc tool => do
      let tool_path := pjoin category_dir tool
      if pathIsDir fs tool_path then do
        let names ← listdirE fs tool_path
        let files := names.map (fun i => pjoin tool_path i)
        let files := pyRemoveAll
          (fun item_path => dccSuffixMatch item_path || ¬ scriptExtMatch item_path) files
        pure (acc ++ [(tool_path, files)])
      else
        pure acc)
    []

/-- Embeds `CustomShelf.get_all_tools` (lines 78-93): discovery.  A missing root is
a no-op; otherwise root entries are sorted, `"icons"` removed, and the two
per-category collections gathered in order. -/
def get_all_tools (fs : FSNode) (shelf_directory : String) :
    Except String (List String × List (String × List String) ×
      List (String × List (String × List String))) := do
  if ¬ pathExists fs shelf_directory then
    pure ([], [], [])
  else do
    let entries ← listdirE fs shelf_directory
    let categories := listRemoveFirst "icons" (sortStrings entries)
    let (tps, pds) ← categories.foldlM
      (fun acc category => do
        let l ← get_tools_from_dir fs shelf_directory category
        let d ← get_popup_tools_from_dir fs shelf_directory category
        pure (acc.1 ++ [(category, l)], acc.2 ++ [(category, d)]))
      (([], []) : List (String × List String) × List (String × List (String × List String)))
    pure (categories, tps, pds)

/-- Embeds `CustomShelf.__init__` (lines 25-37). -/
def mkCustomShelf (fs : FSNode) (shelf_directory shelf_name : String) :
    Except String CustomShelf := do
  let (categories, tool_paths, popup_tool_dict) ← get_all_tools fs shelf_directory
  pure
    { shelf_directory := shelf_directory,
      icon_path := pjoin shelf_directory "icons",
      shelf_name := shelf_name,
      categories := categories,
      popup_tool_dict := popup_tool_dict,
      tool_paths := tool_paths,
      popup_menus := [],
      shelf := none }

/-- Embeds `CustomShelf.filter_py_mel` (lines 231-249): derive `(tool_name, command)`
from a file path.  The `.py` test runs first; an unmatched path yields two
empty strings. -/
def filter_py_mel (file_path : String) : String × String :=
  if regexDotThen "py" file_path then
    (subDotSuffix "py" (basename file_path),
     "exec(open(\"" ++ file_path ++ "\").read())")
  else if regexDotThen "mel" file_path then
    (subDotSuffix "mel" (basename file_path),
     "import maya.mel; maya.mel.eval(\x27source \"" ++ file_path ++ "\"\x27)")
  else
    ("", "")

/-- Embeds `CustomShelf.find_dcc_command` (lines 197-210): sibling
`<base>_dcc.mel` is checked before `<base>_dcc.py`; neither gives `""`. -/
def find_dcc_command (fs : FSNode) (script_path : String) : String :=
  let base := pjoin (dirname script_path) (takeBeforeDot (basename script_path))
  let mel_script := base ++ "_dcc.mel"
  let python_script := base ++ "_dcc.py"
  if pathExists fs mel_script then mel_script
  else if pathExists fs python_script then python_script
  else ""

/-- Embeds `CustomShelf.find_icon` (lines 212-229).  A missing icon directory is
created and the bare default name returned; otherwise the first directory
entry matching the icon pattern - or the default name when none matches - is
joined under the icon directory. -/
def find_icon (fs : FSNode) (icon_path tool_name : String) :
    Except String (String × FSNode) :=
  if pathExists fs icon_path then do
    let entries ← listdirE fs icon_path
    let tool_icon_file :=
      match entries.find? (fun f => iconNameMatch tool_name f) with
      | some f => f
      | none => "commandButton.png"
    pure (pjoin icon_path tool_icon_file, fs)
  else
    pure ("commandButton.png", makedirsPath fs icon_path)

/-- One iteration of the loop of `add_buttons_from_path` (lines 103-114);
an exception of `find_icon` propagates. -/
def buttonStep (acc : World × List Nat) (path : String) :
    Except String (World × List Nat) :=
  let w := acc.1
  let tool_name := (filter_py_mel path).1
  let command1 := (filter_py_mel path).2
  match find_icon w.fs w.st.icon_path tool_name with
  | Except.error e => Except.error e
  | Except.ok (icon, fs2) =>
    let w1 : World := { w with fs := fs2 }
    let command2_script := find_dcc_command w1.fs path
    let command2 := (filter_py_mel command2_script).2
    let label := underscoresToSpaces tool_name
    let (ui2, button) := shelfButtonNew w1.ui label command1 icon command2 w1.st.shelf
    Except.ok ({ w1 with ui := ui2 }, acc.2 ++ [button])

/-- Embeds `CustomShelf.add_buttons_from_path` (lines 95-116): one shelf button per
path, with spaced label, derived command, resolved icon and resolved
double-click command.  Returns the created button handles. -/
def add_buttons_from_path (w : World) (tool_paths : List String) :
    Except String (World × List Nat) :=
  tool_paths.foldlM buttonStep (w, [])

/-- The menu-item loop of `add_popup_button_from_paths` (lines 147-155):
one `"python"`-tagged menu item per remaining file, skipping
package-initializer files. -/
def popupMenuLoop (new_button : Nat) (files : List String) (w : World) : World :=
  files.foldl
    (fun w script_path =>
      if initPyMatch script_path then w
      else
        let item_name := (filter_py_mel script_path).1
        let command := (filter_py_mel script_path).2
        let label := underscoresToSpaces item_name
        { w with ui := (menuItemNew w.ui label command "python" new_button).1 })
    w

/-- Lines 146-155 of `add_popup_button_from_paths`: register the popup menu
of the button under the tool name, then run the menu-item loop over the
(post-removal) file list of the folder. -/
def popupFinish (w : World) (d : List (String × List String))
    (tool_path tool_name : String) (new_button : Nat) :
    World × List (String × List String) :=
  let w : World := { w with st := { w.st with
      popup_menus := assocSet w.st.popup_menus tool_name new_button } }
  (popupMenuLoop new_button ((assocGet d tool_path).getD []) w, d)

/-- One iteration of the key loop of `add_popup_button_from_paths`
(lines 125-155), threading the (mutated) dict alongside the world.
Lines 129-136: the first file whose basename matches the folder-name pattern
is removed from the (shared, cached) list and used for the button itself;
otherwise a bare button is created (lines 141-143). -/
def popupStep (acc : World × List (String × List String)) (tool_path : String) :
    Except String (World × List (String × List String)) :=
  let w := acc.1
  let d := acc.2
  let tool_name := basename tool_path
  let files := (assocGet d tool_path).getD []
  let pick := files.find? (fun sp => popupNameMatch tool_name (basename sp))
  let files2 := match pick with
    | some sp => listRemoveFirst sp files
    | none => files
  let d2 := assocSet d tool_path files2
  match pick with
  | some bp =>
    match add_buttons_from_path w [bp] with
    | Except.error e => Except.error e
    | Except.ok (w1, ids) =>
      match ids with
      | [] => Except.error "IndexError"
      | new_button :: _ =>
        Except.ok (popupFinish w1 d2 tool_path tool_name new_button)
  | none =>
    match find_icon w.fs w.st.icon_path tool_name with
    | Except.error e => Except.error e
    | Except.ok (icon, fs2) =>
      let w1 : World := { w with fs := fs2 }
      let (ui2, new_button) := shelfButtonNew w1.ui tool_name "" icon "" w1.st.shelf
      Except.ok (popupFinish { w1 with ui := ui2 } d2 tool_path tool_name new_button)

/-- Embeds `CustomShelf.add_popup_button_from_paths` (lines 118-155).  The argument
dict is mutated in place in the source; the mutated dict is returned so the
caller (`create_shelf`) can reflect the aliasing into the instance state. -/
def add_popup_button_from_paths (w : World) (d : List (String × List String)) :
    Except String (World × List (String × List String)) :=
  (d.map (fun e => e.1)).foldlM popupStep (w, d)

/-- Embeds `CustomShelf.add_menu_item` (lines 157-163): dict lookup raises
`KeyError` on an unregistered button name; the `language` argument is
ignored and the item is tagged `"python"`. -/
def add_menu_item (w : World) (item_name button_name language command : String) :
    Except String (World × Nat) :=
  match assocGet w.st.popup_menus button_name with
  | none => Except.error ("KeyError: " ++ button_name)
  | some popup_menu =>
    let _ := language
    let (ui2, item) := menuItemNew w.ui item_name command "python" popup_menu
    Except.ok ({ w with ui := ui2 }, item)

/-- Embeds `CustomShelf.add_command` (lines 165-173). -/
def add_command (w : World) (tool_name language : String)
    (icon_arg : Option String) (command dcc_command : String) :
    Except String World :=
  let resolved : Except String (String × World) :=
    match icon_arg with
    | none =>
      match find_icon w.fs w.st.icon_path tool_name with
      | Except.error e => Except.error e
      | Except.ok (ic, fs2) => Except.ok (ic, { w with fs := fs2 })
    | some ip => Except.ok (ip, w)
  match resolved with
  | Except.error e => Except.error e
  | Except.ok (icon_path, w) =>
    let _ := language
    let (ui2, _) := shelfButtonNew w.ui tool_name command icon_path dcc_command w.st.shelf
    Except.ok { w with ui := ui2 }

/-- Embeds `CustomShelf.create_separator` (lines 175-176). -/
def create_separator (w : World) : World :=
  { w with ui := separatorNew w.ui w.st.shelf }

/-- The body of the build branch of `create_shelf` (lines 184-190): create the
layout, then per category render flat buttons, popup buttons (writing the
mutated dict back, as the in-place mutation of the source does), and a
separator. -/
def build_shelf (w : World) : Except String World := do
  let name := w.st.shelf_name
  let w := { w with
      ui := { w.ui with shelves := w.ui.shelves ++ [name] },
      st := { w.st with shelf := some name } }
  w.st.categories.foldlM
    (fun w category => do
      let tps ←
        match assocGet w.st.tool_paths category with
        | some l => pure l
        | none => Except.error ("KeyError: " ++ category)
      let (w, _) ← add_buttons_from_path w tps
      let pd ←
        match assocGet w.st.popup_tool_dict category with
        | some dct => pure dct
        | none => Except.error ("KeyError: " ++ category)
      let (w, pd2) ← add_popup_button_from_paths w pd
      let w := { w with st := { w.st with
          popup_tool_dict := assocSet w.st.popup_tool_dict category pd2 } }
      pure (create_separator w))
    w

/-- Embeds `CustomShelf.reload_shelf` (lines 178-180): `deleteUI` then
`create_shelf`.  After the deletion the layout no longer exists, so the
recursive `create_shelf` call takes the build branch, inlined here. -/
def reload_shelf (w : World) : Except String World :=
  build_shelf { w with ui := deleteShelfUI w.ui w.st.shelf_name }

/-- Embeds `CustomShelf.create_shelf` (lines 182-192). -/
def create_shelf (w : World) : Except String World :=
  if w.ui.shelves.contains w.st.shelf_name then reload_shelf w
  else build_shelf w

/-- No regular file blocks the creation of the directories along `parts`
(the condition under which the Python `os.makedirs` succeeds). -/
def creatableParts : List String → FSNode → Bool
  | [], FSNode.dir _ => true
  | [], FSNode.file => false
  | p :: ps, FSNode.dir es =>
    match es.find? (fun e => e.1 = p) with
    | some e => creatableParts ps e.2
    | none => true
  | _ :: _, FSNode.file => false

/-- A shelf root that contains, besides a normal category directory and the
icons directory, a stray regular file. -/
def c1fs : FSNode := FSNode.dir
  [("root", FSNode.dir
    [("anim", FSNode.dir []),
     ("readme.txt", FSNode.file),
     ("icons", FSNode.dir [])])]

/-- A category directory holding one popup-tool folder whose files are two
`_dcc` scripts, listed with `a_dcc.py` first. -/
def c2fs : FSNode := FSNode.dir
  [("root", FSNode.dir
    [("anim", FSNode.dir
      [("grp", FSNode.dir
        [("a_dcc.py", FSNode.file),
         ("b_dcc.py", FSNode.file)])])])]

/-- Shelf root for the rebuild scenario: one category `anim` holding one
popup-tool folder `bar` with its button script `bar.py`, plus an existing
(empty) icons directory. -/
def c4fs : FSNode := FSNode.dir
  [("root", FSNode.dir
    [("anim", FSNode.dir
      [("bar", FSNode.dir [("bar.py", FSNode.file)])]),
     ("icons", FSNode.dir [])])]

/-- The instance state `CustomShelf.__init__` derives from `c4fs`. -/
def c4st : CustomShelf :=
  { shelf_directory := "root",
    icon_path := "root/icons",
    shelf_name := "AnimShelf",
    categories := ["anim"],
    popup_tool_dict := [("anim", [("root/anim/bar", ["root/anim/bar/bar.py"])])],
    tool_paths := [("anim", [])],
    popup_menus := [],
    shelf := none }

def c4w : World := { fs := c4fs, st := c4st, ui := emptyUI }

/-- The primary command the first build derives for `bar.py`. -/
def c4cmd : String := "exec(open(\"root/anim/bar/bar.py\").read())"

/-- A filesystem whose icon directory exists but is empty. -/
def c7fs : FSNode := FSNode.dir
  [("root", FSNode.dir [("icons", FSNode.dir [])])]

/-- A world with an empty registry, used to exercise `claim_C10`. -/
def c10w : World :=
  { fs := FSNode.dir [],
    st := { shelf_directory := "root", icon_path := "root/icons", shelf_name := "S",
            categories := [], popup_tool_dict := [], tool_paths := [],
            popup_menus := [], shelf := none },
    ui := emptyUI }

/-- Result of `add_command` on `c10w` with a caller-supplied icon. -/
def c10r : World :=
  { c10w with ui := { emptyUI with
      buttons := [{ id := 0, label := "t", command := "c", image := "ic",
                    doubleClick := "d", parent := none }],
      nextId := 1 } }

/-- Result of rendering the empty popup folder `a/b` on `c10w`: the icons
directory gets created and the registry gains the key `b`. -/
def c10r2 : World :=
  { fs := FSNode.dir [("root", FSNode.dir [("icons", FSNode.dir [])])],
    st := { c10w.st with popup_menus := [("b", 0)] },
    ui := { emptyUI with
      buttons := [{ id := 0, label := "b", command := "", image := "commandButton.png",
                    doubleClick := "", parent := none }],
      nextId := 1 } }

/-- A world with one registered popup menu (`bar` at handle `7`) and one
pre-existing mel-tagged menu item. -/
def c8w : World :=
  { fs := FSNode.dir [],
    st := { shelf_directory := "root", icon_path := "root/icons", shelf_name := "S",
            categories := [], popup_tool_dict := [], tool_paths := [],
            popup_menus := [("bar", 7)], shelf := none },
    ui := { emptyUI with
      menuItems := [{ id := 3, label := "old", command := "oc",
                      sourceTag := "mel", parentMenu := 7 }],
      nextId := 4 } }

/-- The pre-existing menu item of `c8w`. -/
def c8item : MayaMenuItem :=
  { id := 3, label := "old", command := "oc", sourceTag := "mel", parentMenu := 7 }

/-- A world with an existing empty icon directory, to exercise `claim_C9`. -/
def c9w : World :=
  { fs := FSNode.dir [("root", FSNode.dir [("icons", FSNode.dir [])])],
    st := { shelf_directory := "root", icon_path := "root/icons", shelf_name := "S",
            categories := [], popup_tool_dict := [], tool_paths := [],
            popup_menus := [], shelf := none },
    ui := emptyUI }

/-- A world with an existing empty icon directory, to exercise `claim_C5`. -/
def c5w : World :=
  { fs := FSNode.dir [("root", FSNode.dir [("icons", FSNode.dir [])])],
    st := { shelf_directory := "root", icon_path := "root/icons", shelf_name := "S",
            categories := [], popup_tool_dict := [], tool_paths := [],
            popup_menus := [], shelf := none },
    ui := emptyUI }

/-- A world whose filesystem holds `root/anim/foo.py`, the sibling
`root/anim/foo_dcc.py` (and no `_dcc.mel`), plus an empty icon directory. -/
def c6w : World :=
  { fs := FSNode.dir
      [("root", FSNode.dir
        [("anim", FSNode.dir [("foo.py", FSNode.file), ("foo_dcc.py", FSNode.file)]),
         ("icons", FSNode.dir [])])],
    st := { shelf_directory := "root", icon_path := "root/icons", shelf_name := "S",
            categories := [], popup_tool_dict := [], tool_paths := [],
            popup_menus := [], shelf := none },
    ui := emptyUI }

/-- A world with an empty icon directory for the popup-rendering scenario. -/
def c3w : World :=
  { fs := FSNode.dir [("root", FSNode.dir [("icons", FSNode.dir [])])],
    st := { shelf_directory := "root", icon_path := "root/icons", shelf_name := "S",
            categories := [], popup_tool_dict := [], tool_paths := [],
            popup_menus := [], shelf := none },
    ui := emptyUI }

/-- The popup dict of folder `bar/` whose file list starts with `foobar.py`. -/
def c3d : List (String × List String) :=
  [("root/anim/bar",
    ["root/anim/bar/foobar.py", "root/anim/bar/bar.py", "root/anim/bar/baz.py"])]

/-! ## Theorems -/

theorem strExt {a b : String} (h : a.data = b.data) : a = b :=
  congrArg String.mk h

theorem splitSlash_ne_nil (l : List Char) : splitSlash l ≠ [] := by
  cases l with
  | nil => simp [splitSlash]
  | cons c cs =>
    simp only [splitSlash]
    cases h : splitSlash cs with
    | nil => simp
    | cons g gs =>
      by_cases hc : c = '/' <;> simp [hc]

theorem splitSlash_no_slash {f : List Char} (h : '/' ∉ f) : splitSlash f = [f] := by
  induction f with
  | nil => rfl
  | cons c cs ih =>
    have hc : c ≠ '/' := fun hc => h (hc ▸ List.mem_cons_self c cs)
    have hcs : '/' ∉ cs := fun hm => h (List.mem_cons_of_mem c hm)
    simp [splitSlash, ih hcs, hc]

theorem splitSlash_append {f : List Char} (h : '/' ∉ f) (l : List Char) :
    splitSlash (l ++ '/' :: f) = splitSlash l ++ [f] := by
  induction l with
  | nil => simp [splitSlash, splitSlash_no_slash h]
  | cons c l ih =>
    cases hg : splitSlash l with
    | nil => exact absurd hg (splitSlash_ne_nil l)
    | cons g gs =>
      rw [hg] at ih
      simp only [List.cons_append, splitSlash, List.append_eq]
      rw [ih, hg]
      by_cases hc : c = '/' <;> simp [hc]

theorem joinSlashAux_splitSlash (l : List Char) : joinSlashAux (splitSlash l) = l := by
  induction l with
  | nil => rfl
  | cons c cs ih =>
    simp only [splitSlash]
    cases hg : splitSlash cs with
    | nil => exact absurd hg (splitSlash_ne_nil cs)
    | cons g gs =>
      rw [hg] at ih
      by_cases hc : c = '/'
      · subst hc
        simpa [joinSlashAux] using ih
      · simp only [hc, if_false]
        cases gs with
        | nil => simp only [joinSlashAux] at ih ⊢; rw [ih]
        | cons g2 gs2 => simp only [joinSlashAux, List.cons_append] at ih ⊢; rw [ih]

theorem basename_concat (d : String) {f : String} (h : '/' ∉ f.data) :
    basename (d ++ "/" ++ f) = f := by
  apply strExt
  simp only [basename]
  rw [show (d ++ "/" ++ f).data = d.data ++ '/' :: f.data by
        simp [String.data_append]]
  rw [splitSlash_append h, List.getLastD_concat]

theorem dirname_concat (d : String) {f : String} (h : '/' ∉ f.data) :
    dirname (d ++ "/" ++ f) = d := by
  apply strExt
  simp only [dirname]
  rw [show (d ++ "/" ++ f).data = d.data ++ '/' :: f.data by
        simp [String.data_append]]
  rw [splitSlash_append h, List.dropLast_concat, joinSlashAux_splitSlash]

theorem pjoin_eq (a b : String) (ha : a.data ≠ []) (ha2 : a.data.getLastD ' ' ≠ '/')
    (hb : b.data.headD ' ' ≠ '/') : pjoin a b = a ++ "/" ++ b := by
  apply strExt
  rw [pjoin, if_neg ha, if_neg hb, if_neg ha2]
  simp [String.data_append, show ("/" : String).data = ['/'] from rfl]

theorem takeWhile_append_stop {p : Char → Bool} {l : List Char} (hl : ∀ c ∈ l, p c = true)
    {a : Char} (ha : p a = false) (r : List Char) :
    (l ++ a :: r).takeWhile p = l := by
  induction l with
  | nil => simp [List.takeWhile, ha]
  | cons c cs ih =>
    have hc : p c = true := hl c (List.mem_cons_self c cs)
    have hcs : ∀ x ∈ cs, p x = true := fun x hx => hl x (List.mem_cons_of_mem c hx)
    simp [List.takeWhile, hc, ih hcs]

theorem headD_ne_slash {l : List Char} (h : '/' ∉ l) : l.headD ' ' ≠ '/' := by
  cases l with
  | nil => simp
  | cons c cs =>
    have : c ≠ '/' := fun hc => h (hc ▸ List.mem_cons_self c cs)
    simpa using this

theorem regexDotThen_of_data {s : String} {l : List Char} {c : Char} {suf : String}
    (hd : s.data = l ++ c :: suf.data) (hc : c ≠ '\n') :
    regexDotThen suf s = true := by
  simp only [regexDotThen, regexLitDotLit, hd, List.reverse_append, List.reverse_cons]
  rw [show (suf.data.reverse ++ [c]) ++ l.reverse = suf.data.reverse ++ (c :: l.reverse) by
        simp]
  rw [show suf.data.length = suf.data.reverse.length by simp]
  rw [List.drop_left]
  have hpre : ∀ (xs ys : List Char), xs.isPrefixOf (xs ++ ys) = true := by
    intro xs
    induction xs with
    | nil => intro ys; simp [List.isPrefixOf]
    | cons x xs ih => intro ys; simp [List.isPrefixOf, ih]
  simp [hpre, hc]

theorem subDotSuffix_of_data {s : String} {l : List Char} {c : Char} {suf : String}
    (hd : s.data = l ++ c :: suf.data) (hc : c ≠ '\n') :
    subDotSuffix suf s = String.mk l := by
  rw [subDotSuffix, if_pos (regexDotThen_of_data hd hc), hd]
  have hlen : (l ++ c :: suf.data).length - (suf.data.length + 1) = l.length := by
    simp [Nat.add_comm]
  rw [hlen, show l.length = l.length from rfl]
  rw [show (l ++ c :: suf.data).take l.length = l from List.take_left l _]

theorem basename_py_concat (d stem : String) (h : '/' ∉ stem.data) :
    basename (d ++ "/" ++ stem ++ ".py") = stem ++ ".py" := by
  rw [show d ++ "/" ++ stem ++ ".py" = d ++ "/" ++ (stem ++ ".py") by
        simp [String.append_assoc]]
  exact basename_concat d (by simp [String.data_append,
    show (".py" : String).data = ['.', 'p', 'y'] from rfl, h])

/-- Lemma: `filter_py_mel` on a well-formed `.py` path under a directory. -/
theorem filter_py_mel_py (d stem : String) (h : '/' ∉ stem.data) :
    filter_py_mel (d ++ "/" ++ stem ++ ".py") =
      (stem, "exec(open(\"" ++ (d ++ "/" ++ stem ++ ".py") ++ "\").read())") := by
  have hdata : (d ++ "/" ++ stem ++ ".py").data =
      (d.data ++ '/' :: stem.data) ++ '.' :: ("py" : String).data := by
    simp [String.data_append, show ("/" : String).data = ['/'] from rfl,
      show (".py" : String).data = ['.', 'p', 'y'] from rfl,
      show ("py" : String).data = ['p', 'y'] from rfl]
  rw [filter_py_mel, if_pos (regexDotThen_of_data hdata (by decide))]
  rw [basename_py_concat d stem h]
  have hb : (stem ++ ".py").data = stem.data ++ '.' :: ("py" : String).data := by
    simp [String.data_append, show (".py" : String).data = ['.', 'p', 'y'] from rfl,
      show ("py" : String).data = ['p', 'y'] from rfl]
  rw [subDotSuffix_of_data hb (by decide)]

theorem filter_py_mel_mel (d stem : String) (h : '/' ∉ stem.data) :
    filter_py_mel (d ++ "/" ++ stem ++ ".mel") =
      (stem, "import maya.mel; maya.mel.eval(\x27source \"" ++
        (d ++ "/" ++ stem ++ ".mel") ++ "\"\x27)") := by
  have hdata : (d ++ "/" ++ stem ++ ".mel").data =
      (d.data ++ '/' :: stem.data) ++ '.' :: ("mel" : String).data := by
    simp [String.data_append, show ("/" : String).data = ['/'] from rfl,
      show (".mel" : String).data = ['.', 'm', 'e', 'l'] from rfl,
      show ("mel" : String).data = ['m', 'e', 'l'] from rfl]
  have hnotpy : regexDotThen "py" (d ++ "/" ++ stem ++ ".mel") = false := by
    rw [regexDotThen, regexLitDotLit, hdata]
    simp [List.reverse_append, List.isPrefixOf]
  rw [filter_py_mel, if_neg (by simp [hnotpy]),
    if_pos (regexDotThen_of_data hdata (by decide))]
  have hb : basename (d ++ "/" ++ stem ++ ".mel") = stem ++ ".mel" := by
    rw [show d ++ "/" ++ stem ++ ".mel" = d ++ "/" ++ (stem ++ ".mel") by
          simp [String.append_assoc]]
    exact basename_concat d (by simp [String.data_append,
      show (".mel" : String).data = ['.', 'm', 'e', 'l'] from rfl, h])
  rw [hb]
  have hbd : (stem ++ ".mel").data = stem.data ++ '.' :: ("mel" : String).data := by
    simp [String.data_append, show (".mel" : String).data = ['.', 'm', 'e', 'l'] from rfl,
      show ("mel" : String).data = ['m', 'e', 'l'] from rfl]
  rw [subDotSuffix_of_data hbd (by decide)]

theorem takeBeforeDot_concat (foo : String) {ext : String} (h : '.' ∉ foo.data)
    (hext : ext.data = '.' :: ext.data.tail) :
    takeBeforeDot (foo ++ ext) = foo := by
  apply strExt
  simp only [takeBeforeDot, String.data_append]
  rw [hext]
  rw [takeWhile_append_stop (fun c hc => by simp; exact fun heq => h (heq ▸ hc)) (by simp)]

/-- Lemma: `find_dcc_command` on a well-formed `.py` path: the source checks the
`_dcc.mel` sibling before the `_dcc.py` sibling. -/
theorem find_dcc_command_concat (fs : FSNode) (d foo : String)
    (h1 : '/' ∉ foo.data) (h2 : '.' ∉ foo.data) (h3 : d.data ≠ [])
    (h4 : d.data.getLastD ' ' ≠ '/') :
    find_dcc_command fs (d ++ "/" ++ foo ++ ".py") =
      (if pathExists fs (d ++ "/" ++ foo ++ "_dcc.mel") then d ++ "/" ++ foo ++ "_dcc.mel"
       else if pathExists fs (d ++ "/" ++ foo ++ "_dcc.py") then d ++ "/" ++ foo ++ "_dcc.py"
       else "") := by
  have hf : '/' ∉ (foo ++ ".py").data := by
    simp [String.data_append, show (".py" : String).data = ['.', 'p', 'y'] from rfl, h1]
  have hdir : dirname (d ++ "/" ++ foo ++ ".py") = d := by
    rw [show d ++ "/" ++ foo ++ ".py" = d ++ "/" ++ (foo ++ ".py") by
          simp [String.append_assoc]]
    exact dirname_concat d hf
  have hbase : basename (d ++ "/" ++ foo ++ ".py") = foo ++ ".py" :=
    basename_py_concat d foo h1
  have htake : takeBeforeDot (foo ++ ".py") = foo :=
    takeBeforeDot_concat foo h2 rfl
  rw [find_dcc_command, hdir, hbase, htake,
    pjoin_eq d foo h3 h4 (headD_ne_slash h1)]

theorem foldlM_ok_induct {α β : Type} (f : β → α → Except String β) (P : β → β → Prop)
    (hrefl : ∀ b, P b b) (htrans : ∀ a b c, P a b → P b c → P a c)
    (hstep : ∀ b a b2, f b a = Except.ok b2 → P b b2) :
    ∀ (l : List α) (b b2 : β), List.foldlM f b l = Except.ok b2 → P b b2 := by
  intro l
  induction l with
  | nil =>
    intro b b2 h
    simp only [List.foldlM_nil] at h
    cases h
    exact hrefl b
  | cons a l ih =>
    intro b b2 h
    rw [List.foldlM_cons] at h
    cases hf : f b a with
    | error e =>
      rw [hf] at h
      simp only [Bind.bind, Except.bind] at h
      cases h
    | ok b1 =>
      rw [hf] at h
      simp only [Bind.bind, Except.bind] at h
      exact htrans b b1 b2 (hstep b a b1 hf) (ih b1 b2 h)

theorem buttonStep_inv {acc acc2 : World × List Nat} {path : String}
    (h : buttonStep acc path = Except.ok acc2) :
    acc2.1.st = acc.1.st ∧ acc2.1.ui.menuItems = acc.1.ui.menuItems := by
  simp only [buttonStep] at h
  cases hf : find_icon acc.1.fs acc.1.st.icon_path (filter_py_mel path).1 with
  | error e => rw [hf] at h; cases h
  | ok p =>
    obtain ⟨icon, fs2⟩ := p
    rw [hf] at h
    simp only [shelfButtonNew] at h
    cases h
    exact ⟨rfl, rfl⟩

/-- Lemma: `add_buttons_from_path` changes no instance attribute and creates no
menu item. -/
theorem add_buttons_from_path_inv {w : World} {ps : List String}
    {r : World × List Nat} (h : add_buttons_from_path w ps = Except.ok r) :
    r.1.st = w.st ∧ r.1.ui.menuItems = w.ui.menuItems := by
  have := foldlM_ok_induct buttonStep
    (fun x y => y.1.st = x.1.st ∧ y.1.ui.menuItems = x.1.ui.menuItems)
    (fun b => ⟨rfl, rfl⟩)
    (fun a b c hab hbc => ⟨hbc.1.trans hab.1, hbc.2.trans hab.2⟩)
    (fun b a b2 hf => buttonStep_inv hf)
    ps (w, []) r h
  exact this

theorem popupMenuLoop_st (nb : Nat) (files : List String) (w : World) :
    (popupMenuLoop nb files w).st = w.st ∧ (popupMenuLoop nb files w).fs = w.fs := by
  induction files generalizing w with
  | nil => exact ⟨rfl, rfl⟩
  | cons f fs ih =>
    simp only [popupMenuLoop, List.foldl_cons]
    by_cases hi : initPyMatch f
    · simpa [hi, popupMenuLoop] using ih _
    · simpa [hi, popupMenuLoop] using ih _

theorem popupMenuLoop_menu (nb : Nat) (files : List String) (w : World) :
    ∀ it ∈ (popupMenuLoop nb files w).ui.menuItems,
      it ∈ w.ui.menuItems ∨ it.sourceTag = "python" := by
  induction files generalizing w with
  | nil => exact fun it hit => Or.inl hit
  | cons f fs ih =>
    intro it hit
    simp only [popupMenuLoop, List.foldl_cons] at hit
    by_cases hi : initPyMatch f
    · rw [if_pos hi] at hit
      exact ih w it hit
    · rw [if_neg hi] at hit
      rcases ih _ it hit with hmem | hpy
      · simp only [menuItemNew, List.mem_append] at hmem
        rcases hmem with hmem | hmem
        · exact Or.inl hmem
        · simp only [List.mem_singleton] at hmem
          subst hmem
          exact Or.inr rfl
      · exact Or.inr hpy

theorem assocGet_append {α : Type} (l1 l2 : List (String × α)) (k : String) :
    assocGet (l1 ++ l2) k =
      match assocGet l1 k with
      | some v => some v
      | none => assocGet l2 k := by
  induction l1 with
  | nil => simp [assocGet]
  | cons e es ih =>
    by_cases he : e.1 = k
    · simp [assocGet, List.find?, he]
    · simpa [assocGet, List.find?, he] using ih

theorem assocGet_assocSet_ne {α : Type} (l : List (String × α)) (k k2 : String) (v : α)
    (h : k2 ≠ k) : assocGet (assocSet l k v) k2 = assocGet l k2 := by
  unfold assocSet
  by_cases hany : l.any (fun e => e.1 = k)
  · rw [if_pos (by simpa using hany)]
    unfold assocGet
    rw [List.find?_map]
    have hp : (fun (e : String × α) => decide (e.1 = k2)) ∘
        (fun e => if e.1 = k then (k, v) else e) =
        fun (e : String × α) => decide (e.1 = k2) := by
      funext e
      by_cases he : e.1 = k
      · simp [he, Ne.symm h]
      · simp [he]
    rw [show ((fun (e : String × α) => decide (e.1 = k2)) ∘
        (fun e => if e.1 = k then (k, v) else e)) =
        (fun (e : String × α) => decide (e.1 = k2)) from hp]
    cases hfind : l.find? (fun (e : String × α) => decide (e.1 = k2)) with
    | none => simp
    | some e =>
      have hsat := List.find?_some hfind
      have he2 : e.1 = k2 := by simpa using hsat
      have hne : ¬ e.1 = k := fun hh => h (he2 ▸ hh)
      simp [hne]
  · rw [if_neg (by simpa using hany)]
    rw [assocGet_append]
    cases hfind : assocGet l k2 with
    | some v2 => simp
    | none => simp [assocGet, List.find?, Ne.symm h]

theorem assocGet_assocSet_isSome {α : Type} {l : List (String × α)} {k k2 : String}
    {v : α} (h : (assocGet (assocSet l k v) k2).isSome = true) :
    (assocGet l k2).isSome = true ∨ k2 = k := by
  by_cases heq : k2 = k
  · exact Or.inr heq
  · rw [assocGet_assocSet_ne l k k2 v heq] at h
    exact Or.inl h

theorem popupFinish_menu (w : World) (d : List (String × List String))
    (tp tn : String) (nb : Nat) :
    ∀ it ∈ (popupFinish w d tp tn nb).1.ui.menuItems,
      it ∈ w.ui.menuItems ∨ it.sourceTag = "python" := by
  intro it hit
  simp only [popupFinish] at hit
  exact popupMenuLoop_menu nb ((assocGet d tp).getD [])
    { w with st := { w.st with popup_menus := assocSet w.st.popup_menus tn nb } } it hit

theorem popupFinish_keys (w : World) (d : List (String × List String))
    (tp tn : String) (nb : Nat) :
    ∀ k, (assocGet (popupFinish w d tp tn nb).1.st.popup_menus k).isSome = true →
      (assocGet w.st.popup_menus k).isSome = true ∨ k = tn := by
  intro k hk
  have hst := (popupMenuLoop_st nb ((assocGet d tp).getD [])
    { w with st := { w.st with popup_menus := assocSet w.st.popup_menus tn nb } }).1
  simp only [popupFinish] at hk
  rw [hst] at hk
  exact assocGet_assocSet_isSome hk

theorem popupStep_inv {acc acc2 : World × List (String × List String)} {tp : String}
    (h : popupStep acc tp = Except.ok acc2) :
    (∀ it ∈ acc2.1.ui.menuItems, it ∈ acc.1.ui.menuItems ∨ it.sourceTag = "python") ∧
    (∀ k, (assocGet acc2.1.st.popup_menus k).isSome = true →
      (assocGet acc.1.st.popup_menus k).isSome = true ∨ k = basename tp) := by
  simp only [popupStep] at h
  cases hpick : ((assocGet acc.2 tp).getD []).find?
      (fun sp => popupNameMatch (basename tp) (basename sp)) with
  | some bp =>
    simp only [hpick] at h
    cases hab : add_buttons_from_path acc.1 [bp] with
    | error e => simp only [hab] at h; cases h
    | ok r =>
      obtain ⟨w1, ids⟩ := r
      simp only [hab] at h
      cases ids with
      | nil => simp at h
      | cons nb rest =>
        simp only [] at h
        cases h
        have hinv := add_buttons_from_path_inv hab
        constructor
        · intro it hit
          rcases popupFinish_menu w1 _ tp (basename tp) nb it hit with hmem | hpy
          · rw [hinv.2] at hmem; exact Or.inl hmem
          · exact Or.inr hpy
        · intro k hk
          rcases popupFinish_keys w1 _ tp (basename tp) nb k hk with hs | hkey
          · rw [hinv.1] at hs; exact Or.inl hs
          · exact Or.inr hkey
  | none =>
    simp only [hpick] at h
    cases hfi : find_icon acc.1.fs acc.1.st.icon_path (basename tp) with
    | error e => simp only [hfi] at h; cases h
    | ok p =>
      obtain ⟨icon, fs2⟩ := p
      simp only [hfi, shelfButtonNew] at h
      cases h
      constructor
      · intro it hit
        have h3 := popupFinish_menu _ _ tp (basename tp) _ it hit
        exact h3
      · intro k hk
        have h3 := popupFinish_keys _ _ tp (basename tp) _ k hk
        exact h3

/-- New keys of the popup-menu registry after `add_popup_button_from_paths`
are exactly basenames of rendered popup-tool folders. -/
theorem add_popup_keys_inv :
    ∀ (ks : List String) (acc r : World × List (String × List String)),
      ks.foldlM popupStep acc = Except.ok r →
      ∀ k, (assocGet r.1.st.popup_menus k).isSome = true →
        (assocGet acc.1.st.popup_menus k).isSome = true ∨ k ∈ ks.map basename := by
  intro ks
  induction ks with
  | nil =>
    intro acc r h k hk
    simp only [List.foldlM_nil] at h
    cases h
    exact Or.inl hk
  | cons tp ks ih =>
    intro acc r h k hk
    rw [List.foldlM_cons] at h
    cases hf : popupStep acc tp with
    | error e =>
      rw [hf] at h
      simp only [Bind.bind, Except.bind] at h
      cases h
    | ok acc1 =>
      rw [hf] at h
      simp only [Bind.bind, Except.bind] at h
      rcases ih acc1 r h k hk with hs | hmem
      · rcases (popupStep_inv hf).2 k hs with hs0 | hkey
        · exact Or.inl hs0
        · exact Or.inr (by simp [hkey])
      · exact Or.inr (by simp [List.mem_cons] at hmem ⊢; exact Or.inr hmem)

theorem find?_map_keyed {α : Type} (es : List (String × α)) (p : String) (F : α → α) :
    (es.map (fun e => if e.1 = p then (p, F e.2) else e)).find?
        (fun e => e.1 = p) =
      (es.find? (fun e => e.1 = p)).map (fun e => (p, F e.2)) := by
  induction es with
  | nil => rfl
  | cons e es ih =>
    by_cases he : e.1 = p
    · simp [List.find?, he]
    · simp [List.find?, he, ih]

theorem resolve_makedirs : ∀ (parts : List String) (fs : FSNode),
    creatableParts parts fs = true →
    ∃ es2, resolveParts parts (makedirsParts parts fs) = some (FSNode.dir es2) := by
  intro parts
  induction parts with
  | nil =>
    intro fs h
    cases fs with
    | file => simp [creatableParts] at h
    | dir es => exact ⟨es, rfl⟩
  | cons p ps ih =>
    intro fs h
    cases fs with
    | file => simp [creatableParts] at h
    | dir es =>
      simp only [creatableParts] at h
      cases hfind : es.find? (fun e => e.1 = p) with
      | some e =>
        rw [hfind] at h
        have hany : es.any (fun e => e.1 = p) = true := by
          have hmem := List.mem_of_find?_eq_some hfind
          have hsat := List.find?_some hfind
          simp only [List.any_eq_true]
          exact ⟨e, hmem, hsat⟩
        simp only [makedirsParts, hany, if_pos]
        have hkey : e.1 = p := by simpa using List.find?_some hfind
        simp only [resolveParts]
        rw [show (fun (e : String × FSNode) =>
              if e.1 = p then (p, makedirsParts ps e.2) else e) =
            (fun (e : String × FSNode) =>
              if e.1 = p then (p, (fun x => makedirsParts ps x) e.2) else e) from rfl]
        rw [find?_map_keyed es p (fun x => makedirsParts ps x), hfind]
        exact ih e.2 h
      | none =>
        rw [hfind] at h
        have hany : es.any (fun e => e.1 = p) = false := by
          rw [List.any_eq_false]
          intro e hmem
          have := List.find?_eq_none.mp hfind e hmem
          simpa using this
        simp only [makedirsParts, hany, Bool.false_eq_true, if_false]
        simp only [resolveParts]
        rw [List.find?_append, hfind]
        have hfresh : ∀ (qs : List String),
            ∃ es2, resolveParts qs (makedirsParts qs (FSNode.dir [])) =
              some (FSNode.dir es2) := by
          intro qs
          induction qs with
          | nil => exact ⟨[], rfl⟩
          | cons q qs ih2 =>
            simp only [makedirsParts, List.any_nil, Bool.false_eq_true, if_false,
              List.nil_append, resolveParts, List.find?]
            simpa using ih2
        simpa [List.find?] using hfresh ps

/-- After `os.makedirs(p)` on an unblocked path, `p` is a directory. -/
theorem makedirsPath_isDir (fs : FSNode) (p : String)
    (h : creatableParts ((splitSlash p.data).map String.mk) fs = true) :
    pathIsDir (makedirsPath fs p) p = true := by
  obtain ⟨es2, heq⟩ := resolve_makedirs ((splitSlash p.data).map String.mk) fs h
  simp only [pathIsDir, resolvePath, makedirsPath, heq]

/-- C1: the claim says categories are exactly the immediate SUBDIRECTORIES of
the root.  The code instead takes every `os.listdir` entry: a regular file
such as `readme.txt` becomes a category, and discovery then crashes calling
`os.listdir` on it (`NotADirectoryError`), instead of producing the
subdirectory categories without error.  The missing-root half of the claim
does hold: discovery on a nonexistent root is a silent no-op with an empty
category set. -/
theorem claim_C1 :
    get_all_tools c1fs "root" = Except.error "NotADirectoryError" ∧
    get_all_tools c1fs "nope" = Except.ok ([], [], []) :=
  ⟨rfl, rfl⟩

/-- C2: the claim says the file list of a popup-tool folder holds exactly the
files passing the extension/double-click filter.  The source removes items
from the list it is iterating (lines 72-74), so after `a_dcc.py` is removed
the iterator skips over `b_dcc.py`: a `_dcc` file survives in the popup file
list even though the filter matches it. -/
theorem claim_C2 :
    get_popup_tools_from_dir c2fs "root" "anim" =
      Except.ok [("root/anim/grp", ["root/anim/grp/b_dcc.py"])] ∧
    dccSuffixMatch "root/anim/grp/b_dcc.py" = true :=
  ⟨rfl, rfl⟩

/-- C4: building once yields the popup button `bar` with the derived command
of `bar.py`.  Building again does tear the old shelf down entirely, but—because
the first build removed `bar.py` from the cached `popup_tool_dict` list in
place—the rebuilt `bar` button has an empty command: rebuilding twice
is NOT equivalent to building once under an unchanged filesystem, contrary to
the idempotence half of the claim. -/
theorem claim_C4 :
    mkCustomShelf c4fs "root" "AnimShelf" = Except.ok c4st ∧
    (create_shelf c4w).map
        (fun w => w.ui.buttons.map (fun b => (b.label, b.command))) =
      Except.ok [("bar", c4cmd)] ∧
    ((create_shelf c4w).bind create_shelf).map
        (fun w => w.ui.buttons.map (fun b => (b.label, b.command))) =
      Except.ok [("bar", "")] ∧
    c4cmd ≠ "" :=
  ⟨rfl, rfl, rfl, by decide⟩

/-- C7 counterexample: with an existing icon directory and no matching icon
file, `find_icon` does not return the bare default icon identifier
`"commandButton.png"`; it returns the default name joined under the icon
directory. -/
theorem claim_C7_counterexample :
    find_icon c7fs "root/icons" "snap" =
      Except.ok ("root/icons/commandButton.png", c7fs) ∧
    "root/icons/commandButton.png" ≠ "commandButton.png" :=
  ⟨rfl, by decide⟩

/-- C7 (amended): if the icon directory does not exist, it is created
(whenever no regular file blocks the creation, which is the case the claim
describes) and the BARE default icon name is returned; if it exists and no
entry matches the tool name, the returned value is the default icon name
JOINED UNDER the icon directory (not the bare default identifier); neither
case raises an error. -/
theorem claim_C7 (fs : FSNode) (icon_path tool_name : String) :
    (pathExists fs icon_path = false →
      find_icon fs icon_path tool_name =
        Except.ok ("commandButton.png", makedirsPath fs icon_path) ∧
      (creatableParts ((splitSlash icon_path.data).map String.mk) fs = true →
        pathIsDir (makedirsPath fs icon_path) icon_path = true)) ∧
    (∀ names, listdirE fs icon_path = Except.ok names →
      names.find? (fun f => iconNameMatch tool_name f) = none →
      find_icon fs icon_path tool_name =
        Except.ok (pjoin icon_path "commandButton.png", fs)) := by
  constructor
  · intro hmiss
    constructor
    · rw [find_icon, hmiss]
      simp only [Bool.false_eq_true, if_false]
      rfl
    · intro hcreat
      exact makedirsPath_isDir fs icon_path hcreat
  · intro names hls hfind
    have hex : pathExists fs icon_path = true := by
      unfold listdirE at hls
      unfold pathExists
      cases hres : resolvePath fs icon_path with
      | none => rw [hres] at hls; cases hls
      | some n => simp [hres]
    rw [find_icon, hex]
    simp only [if_true]
    rw [hls]
    simp only [Bind.bind, Except.bind, hfind]
    rfl

/-- C7 witness: both halves of `claim_C7` applied at concrete inputs: a
filesystem without the icon directory (it gets created, bare default
returned) and `c7fs` (existing empty icon directory, joined default
returned). -/
theorem claim_C7_witness :
    (find_icon (FSNode.dir []) "root/icons" "snap" =
        Except.ok ("commandButton.png", makedirsPath (FSNode.dir []) "root/icons") ∧
      pathIsDir (makedirsPath (FSNode.dir []) "root/icons") "root/icons" = true) ∧
    find_icon c7fs "root/icons" "snap" =
      Except.ok (pjoin "root/icons" "commandButton.png", c7fs) := by
  constructor
  · have h := (claim_C7 (FSNode.dir []) "root/icons" "snap").1 (by decide)
    exact ⟨h.1, h.2 (by decide)⟩
  · exact (claim_C7 c7fs "root/icons" "snap").2 [] rfl rfl

/-- C9: a popup-tool folder with an empty filtered file list still yields
exactly one button, with empty command, empty double-click command, the
resolved icon, the folder basename as label - and no menu items at all
(the resulting UI keeps `menuItems` unchanged). -/
theorem claim_C9 (w : World) (p icon : String) (fs2 : FSNode)
    (hi : find_icon w.fs w.st.icon_path (basename p) = Except.ok (icon, fs2)) :
    add_popup_button_from_paths w [(p, [])] =
      Except.ok
        ({ fs := fs2,
           st := { w.st with
                   popup_menus := assocSet w.st.popup_menus (basename p) w.ui.nextId },
           ui := { w.ui with
             buttons := w.ui.buttons ++
               [{ id := w.ui.nextId, label := basename p, command := "",
                  image := icon, doubleClick := "", parent := w.st.shelf }],
             nextId := w.ui.nextId + 1 } },
         [(p, [])]) := by
  simp only [add_popup_button_from_paths, List.map, List.foldlM_cons, List.foldlM_nil,
    popupStep, assocGet, List.find?, Option.getD, shelfButtonNew, popupFinish,
    popupMenuLoop, List.foldl_nil, hi]
  simp [assocSet, Bind.bind, Except.bind, pure, Except.pure, popupMenuLoop, assocGet,
    List.find?]

/-- C10: the popup-menu registry is written only by the popup-button
rendering loop (keyed by the basename of the popup tool); flat-button rendering,
the ad hoc shortcut-button operation and the separator leave it unchanged,
and `add_menu_item` on an unregistered button name fails with a key-lookup
error instead of creating anything. -/
theorem claim_C10 :
    (∀ (w : World) (item_name button_name language command : String),
      assocGet w.st.popup_menus button_name = none →
      add_menu_item w item_name button_name language command =
        Except.error ("KeyError: " ++ button_name)) ∧
    (∀ (w : World) (ps : List String) (r : World × List Nat),
      add_buttons_from_path w ps = Except.ok r →
      r.1.st.popup_menus = w.st.popup_menus) ∧
    (∀ (w : World) (tn lang : String) (ia : Option String) (cmd dcc : String)
        (r : World),
      add_command w tn lang ia cmd dcc = Except.ok r →
      r.st.popup_menus = w.st.popup_menus) ∧
    (∀ w : World, (create_separator w).st.popup_menus = w.st.popup_menus) ∧
    (∀ (w : World) (d : List (String × List String)) (w2 : World)
        (r : List (String × List String)),
      add_popup_button_from_paths w d = Except.ok (w2, r) →
      ∀ k, (assocGet w2.st.popup_menus k).isSome = true →
        (assocGet w.st.popup_menus k).isSome = true ∨
          k ∈ d.map (fun e => basename e.1)) := by
  refine ⟨?_, ?_, ?_, ?_, ?_⟩
  · intro w item_name button_name language command hm
    simp only [add_menu_item, hm]
  · intro w ps r h
    rw [(add_buttons_from_path_inv h).1]
  · intro w tn lang ia cmd dcc r h
    cases ia with
    | some ip =>
      simp only [add_command, shelfButtonNew] at h
      cases h
      rfl
    | none =>
      simp only [add_command] at h
      cases hfi : find_icon w.fs w.st.icon_path tn with
      | error e => rw [hfi] at h; cases h
      | ok p =>
        obtain ⟨ic, fs2⟩ := p
        rw [hfi] at h
        simp only [shelfButtonNew] at h
        cases h
        rfl
  · intro w
    rfl
  · intro w d w2 r h k hk
    have h2 : (d.map (fun e => e.1)).foldlM popupStep (w, d) = Except.ok (w2, r) := h
    rcases add_popup_keys_inv (d.map (fun e => e.1)) (w, d) (w2, r) h2 k hk with hs | hmem
    · exact Or.inl hs
    · rw [List.map_map] at hmem
      exact Or.inr (by simpa [Function.comp] using hmem)

/-- C10 witness: each hypothesis-bearing conjunct of `claim_C10` applied at
a concrete input. -/
theorem claim_C10_witness :
    add_menu_item c10w "extra" "missing" "mel" "cmd" =
      Except.error ("KeyError: " ++ "missing") ∧
    c10w.st.popup_menus = c10w.st.popup_menus ∧
    c10r.st.popup_menus = c10w.st.popup_menus ∧
    ((assocGet c10w.st.popup_menus "b").isSome = true ∨
      "b" ∈ [("a/b", ([] : List String))].map (fun e => basename e.1)) := by
  refine ⟨?_, ?_, ?_, ?_⟩
  · exact claim_C10.1 c10w "extra" "missing" "mel" "cmd" rfl
  · exact claim_C10.2.1 c10w [] (c10w, []) rfl
  · exact claim_C10.2.2.1 c10w "t" "mel" (some "ic") "c" "d" c10r rfl
  · exact claim_C10.2.2.2.2 c10w [("a/b", [])] c10r2 [("a/b", [])] rfl "b" rfl

/-- Lemma: `add_popup_button_from_paths` creates only `"python"`-tagged menu items:
every menu item of the resulting UI either pre-existed or is tagged
`"python"`. -/
theorem add_popup_menu_inv {w : World} {d r : List (String × List String)}
    {w2 : World} (h : add_popup_button_from_paths w d = Except.ok (w2, r)) :
    ∀ it ∈ w2.ui.menuItems, it ∈ w.ui.menuItems ∨ it.sourceTag = "python" := by
  have := foldlM_ok_induct popupStep
    (fun x y => ∀ it ∈ y.1.ui.menuItems, it ∈ x.1.ui.menuItems ∨ it.sourceTag = "python")
    (fun b it hit => Or.inl hit)
    (fun a b c hab hbc it hit => by
      rcases hbc it hit with hmem | hpy
      · exact hab it hmem
      · exact Or.inr hpy)
    (fun b a b2 hf => (popupStep_inv hf).1)
    (d.map (fun e => e.1)) (w, d) (w2, r) (by exact h)
  exact this

/-- C8: every menu item created by popup-button rendering carries the source
language tag `"python"` (whatever the file extension), and `add_menu_item`
tags the created item `"python"` no matter which `language` argument the
caller passes. -/
theorem claim_C8 :
    (∀ (w : World) (d : List (String × List String)) (w2 : World)
        (r : List (String × List String)),
      add_popup_button_from_paths w d = Except.ok (w2, r) →
      ∀ it ∈ w2.ui.menuItems, it ∈ w.ui.menuItems ∨ it.sourceTag = "python") ∧
    (∀ (w : World) (item_name button_name language command : String)
        (w2 : World) (item : Nat),
      add_menu_item w item_name button_name language command =
        Except.ok (w2, item) →
      ∃ pm, assocGet w.st.popup_menus button_name = some pm ∧
        w2.ui.menuItems = w.ui.menuItems ++
          [{ id := w.ui.nextId, label := item_name, command := command,
             sourceTag := "python", parentMenu := pm }]) := by
  constructor
  · intro w d w2 r h
    exact add_popup_menu_inv h
  · intro w item_name button_name language command w2 item h
    cases hm : assocGet w.st.popup_menus button_name with
    | none => simp only [add_menu_item, hm] at h; cases h
    | some pm =>
      simp only [add_menu_item, hm, menuItemNew] at h
      cases h
      exact ⟨pm, rfl, rfl⟩

/-- C8 witness: both conjuncts of `claim_C8` applied at concrete inputs; the
`add_menu_item` call passes `language = "mel"` yet the created item is
tagged `"python"` and parented to the registered handle `7`. -/
theorem claim_C8_witness :
    (c8item ∈ c8w.ui.menuItems ∨ c8item.sourceTag = "python") ∧
    ({ c8w with ui := { c8w.ui with
        menuItems := c8w.ui.menuItems ++
          [{ id := 4, label := "extra tool", command := "cmd2",
             sourceTag := "python", parentMenu := 7 }],
        nextId := 5 } } : World).ui.menuItems =
      c8w.ui.menuItems ++
        [{ id := c8w.ui.nextId, label := "extra tool", command := "cmd2",
           sourceTag := "python", parentMenu := 7 }] := by
  constructor
  · exact claim_C8.1 c8w [] c8w [] rfl c8item (by decide)
  · have h := claim_C8.2 c8w "extra tool" "bar" "mel" "cmd2"
      { c8w with ui := { c8w.ui with
          menuItems := c8w.ui.menuItems ++
            [{ id := 4, label := "extra tool", command := "cmd2",
               sourceTag := "python", parentMenu := 7 }],
          nextId := 5 } }
      c8w.ui.nextId rfl
    obtain ⟨pm, hpm, hitems⟩ := h
    have hpm7 : pm = 7 := by
      have h2 : some pm = some 7 := by rw [← hpm]; rfl
      exact Option.some.inj h2.symm ▸ rfl
    rw [hpm7] at hitems
    exact hitems

/-- C9 witness: rendering the empty popup folder `root/anim/box` on `c9w`
creates exactly one bare button and no menu items. -/
theorem claim_C9_witness :
    add_popup_button_from_paths c9w [("root/anim/box", [])] =
      Except.ok
        ({ fs := c9w.fs,
           st := { c9w.st with
                   popup_menus := assocSet c9w.st.popup_menus
                     (basename "root/anim/box") c9w.ui.nextId },
           ui := { c9w.ui with
             buttons := c9w.ui.buttons ++
               [{ id := c9w.ui.nextId, label := basename "root/anim/box",
                  command := "", image := "root/icons/commandButton.png",
                  doubleClick := "", parent := c9w.st.shelf }],
             nextId := c9w.ui.nextId + 1 } },
         [("root/anim/box", [])]) :=
  claim_C9 c9w "root/anim/box" "root/icons/commandButton.png" c9w.fs rfl

/-- C5: rendering a flat button for the tool file `<d>/<stem>.py` (or
`<d>/<stem>.mel`) gives the button the visible label
`underscoresToSpaces stem` - the base name with the script extension
stripped and underscores replaced by spaces - while the primary command
embeds the original, unmodified file path. -/
theorem claim_C5 :
    (∀ (w : World) (d stem icon : String) (fs2 : FSNode),
      '/' ∉ stem.data →
      find_icon w.fs w.st.icon_path stem = Except.ok (icon, fs2) →
      ∃ (w2 : World) (ids : List Nat) (b : MayaButton),
        add_buttons_from_path w [d ++ "/" ++ stem ++ ".py"] = Except.ok (w2, ids) ∧
        w2.ui.buttons = w.ui.buttons ++ [b] ∧
        b.label = underscoresToSpaces stem ∧
        b.command = "exec(open(\"" ++ (d ++ "/" ++ stem ++ ".py") ++ "\").read())") ∧
    (∀ (w : World) (d stem icon : String) (fs2 : FSNode),
      '/' ∉ stem.data →
      find_icon w.fs w.st.icon_path stem = Except.ok (icon, fs2) →
      ∃ (w2 : World) (ids : List Nat) (b : MayaButton),
        add_buttons_from_path w [d ++ "/" ++ stem ++ ".mel"] = Except.ok (w2, ids) ∧
        w2.ui.buttons = w.ui.buttons ++ [b] ∧
        b.label = underscoresToSpaces stem ∧
        b.command = "import maya.mel; maya.mel.eval(\x27source \"" ++
          (d ++ "/" ++ stem ++ ".mel") ++ "\"\x27)") := by
  constructor
  · intro w d stem icon fs2 hs hi
    have hf := filter_py_mel_py d stem hs
    have hrun : add_buttons_from_path w [d ++ "/" ++ stem ++ ".py"] =
        Except.ok
          ({ w with
             fs := fs2,
             ui := { w.ui with
                     buttons := w.ui.buttons ++
                       [{ id := w.ui.nextId,
                          label := underscoresToSpaces stem,
                          command := "exec(open(\"" ++ (d ++ "/" ++ stem ++ ".py") ++ "\").read())",
                          image := icon,
                          doubleClick :=
                            (filter_py_mel
                              (find_dcc_command fs2 (d ++ "/" ++ stem ++ ".py"))).2,
                          parent := w.st.shelf }],
                     nextId := w.ui.nextId + 1 } },
           [w.ui.nextId]) := by
      simp only [add_buttons_from_path, List.foldlM_cons, List.foldlM_nil,
        buttonStep, hf, hi, shelfButtonNew, Bind.bind, Except.bind]
      rfl
    exact ⟨_, _, _, hrun, rfl, rfl, rfl⟩
  · intro w d stem icon fs2 hs hi
    have hf := filter_py_mel_mel d stem hs
    have hrun : add_buttons_from_path w [d ++ "/" ++ stem ++ ".mel"] =
        Except.ok
          ({ w with
             fs := fs2,
             ui := { w.ui with
                     buttons := w.ui.buttons ++
                       [{ id := w.ui.nextId,
                          label := underscoresToSpaces stem,
                          command := "import maya.mel; maya.mel.eval(\x27source \"" ++
                            (d ++ "/" ++ stem ++ ".mel") ++ "\"\x27)",
                          image := icon,
                          doubleClick :=
                            (filter_py_mel
                              (find_dcc_command fs2 (d ++ "/" ++ stem ++ ".mel"))).2,
                          parent := w.st.shelf }],
                     nextId := w.ui.nextId + 1 } },
           [w.ui.nextId]) := by
      simp only [add_buttons_from_path, List.foldlM_cons, List.foldlM_nil,
        buttonStep, hf, hi, shelfButtonNew, Bind.bind, Except.bind]
      rfl
    exact ⟨_, _, _, hrun, rfl, rfl, rfl⟩

/-- C5 witness: both halves of `claim_C5` at `root/anim/my_tool.py` and
`root/anim/my_tool.mel`, together with the round-trip example of the claim:
the spaced label of `my_tool` is `"my tool"`. -/
theorem claim_C5_witness :
    ('/' ∉ ("my_tool" : String).data) ∧
    underscoresToSpaces "my_tool" = "my tool" ∧
    (∃ (w2 : World) (ids : List Nat) (b : MayaButton),
      add_buttons_from_path c5w ["root/anim" ++ "/" ++ "my_tool" ++ ".py"] =
        Except.ok (w2, ids) ∧
      w2.ui.buttons = c5w.ui.buttons ++ [b] ∧
      b.label = underscoresToSpaces "my_tool" ∧
      b.command =
        "exec(open(\"" ++ ("root/anim" ++ "/" ++ "my_tool" ++ ".py") ++ "\").read())") ∧
    (∃ (w2 : World) (ids : List Nat) (b : MayaButton),
      add_buttons_from_path c5w ["root/anim" ++ "/" ++ "my_tool" ++ ".mel"] =
        Except.ok (w2, ids) ∧
      w2.ui.buttons = c5w.ui.buttons ++ [b] ∧
      b.label = underscoresToSpaces "my_tool" ∧
      b.command = "import maya.mel; maya.mel.eval(\x27source \"" ++
        ("root/anim" ++ "/" ++ "my_tool" ++ ".mel") ++ "\"\x27)") :=
  ⟨by decide, by decide,
   claim_C5.1 c5w "root/anim" "my_tool" "root/icons/commandButton.png" c5w.fs
     (by decide) rfl,
   claim_C5.2 c5w "root/anim" "my_tool" "root/icons/commandButton.png" c5w.fs
     (by decide) rfl⟩

/-- C6: rendering a flat button for `<d>/<foo>.py` resolves the secondary
(double-click) command from the sibling `_dcc` scripts: the `_dcc.mel`
sibling is preferred, else the derived command of the `_dcc.py` sibling is used,
and with neither sibling the secondary command is the empty string - no
error in any case. -/
theorem claim_C6 (w : World) (d foo icon : String) (fs2 : FSNode)
    (h1 : '/' ∉ foo.data) (h2 : '.' ∉ foo.data)
    (h3 : d.data ≠ []) (h4 : d.data.getLastD ' ' ≠ '/')
    (hi : find_icon w.fs w.st.icon_path foo = Except.ok (icon, fs2)) :
    ∃ (w2 : World) (ids : List Nat) (b : MayaButton),
      add_buttons_from_path w [d ++ "/" ++ foo ++ ".py"] = Except.ok (w2, ids) ∧
      w2.ui.buttons = w.ui.buttons ++ [b] ∧
      (pathExists fs2 (d ++ "/" ++ foo ++ "_dcc.mel") = true →
        b.doubleClick = (filter_py_mel (d ++ "/" ++ foo ++ "_dcc.mel")).2) ∧
      (pathExists fs2 (d ++ "/" ++ foo ++ "_dcc.mel") = false →
        pathExists fs2 (d ++ "/" ++ foo ++ "_dcc.py") = true →
        b.doubleClick = (filter_py_mel (d ++ "/" ++ foo ++ "_dcc.py")).2) ∧
      (pathExists fs2 (d ++ "/" ++ foo ++ "_dcc.mel") = false →
        pathExists fs2 (d ++ "/" ++ foo ++ "_dcc.py") = false →
        b.doubleClick = "") := by
  have hf := filter_py_mel_py d foo h1
  have hdcc := find_dcc_command_concat fs2 d foo h1 h2 h3 h4
  have hrun : add_buttons_from_path w [d ++ "/" ++ foo ++ ".py"] =
      Except.ok
        ({ w with
           fs := fs2,
           ui := { w.ui with
                   buttons := w.ui.buttons ++
                     [{ id := w.ui.nextId,
                        label := underscoresToSpaces foo,
                        command := "exec(open(\"" ++ (d ++ "/" ++ foo ++ ".py") ++ "\").read())",
                        image := icon,
                        doubleClick :=
                          (filter_py_mel
                            (find_dcc_command fs2 (d ++ "/" ++ foo ++ ".py"))).2,
                        parent := w.st.shelf }],
                   nextId := w.ui.nextId + 1 } },
         [w.ui.nextId]) := by
    simp only [add_buttons_from_path, List.foldlM_cons, List.foldlM_nil,
      buttonStep, hf, hi, shelfButtonNew, Bind.bind, Except.bind]
    rfl
  refine ⟨_, _, _, hrun, rfl, ?_, ?_, ?_⟩
  · intro hmel
    simp [hdcc, hmel]
  · intro hmel hpy
    simp [hdcc, hmel, hpy]
  · intro hmel hpy
    simp [hdcc, hmel, hpy]
    rfl

/-- C6 witness: `claim_C6` at `root/anim/foo.py` on `c6w`, where only the
`_dcc.py` sibling exists. -/
theorem claim_C6_witness :
    pathExists c6w.fs ("root/anim" ++ "/" ++ "foo" ++ "_dcc.mel") = false ∧
    pathExists c6w.fs ("root/anim" ++ "/" ++ "foo" ++ "_dcc.py") = true ∧
    (∃ (w2 : World) (ids : List Nat) (b : MayaButton),
      add_buttons_from_path c6w ["root/anim" ++ "/" ++ "foo" ++ ".py"] =
        Except.ok (w2, ids) ∧
      w2.ui.buttons = c6w.ui.buttons ++ [b] ∧
      (pathExists c6w.fs ("root/anim" ++ "/" ++ "foo" ++ "_dcc.mel") = true →
        b.doubleClick = (filter_py_mel ("root/anim" ++ "/" ++ "foo" ++ "_dcc.mel")).2) ∧
      (pathExists c6w.fs ("root/anim" ++ "/" ++ "foo" ++ "_dcc.mel") = false →
        pathExists c6w.fs ("root/anim" ++ "/" ++ "foo" ++ "_dcc.py") = true →
        b.doubleClick = (filter_py_mel ("root/anim" ++ "/" ++ "foo" ++ "_dcc.py")).2) ∧
      (pathExists c6w.fs ("root/anim" ++ "/" ++ "foo" ++ "_dcc.mel") = false →
        pathExists c6w.fs ("root/anim" ++ "/" ++ "foo" ++ "_dcc.py") = false →
        b.doubleClick = "")) :=
  ⟨by decide, by decide,
   claim_C6 c6w "root/anim" "foo" "root/icons/commandButton.png" c6w.fs
     (by decide) (by decide) (by decide) (by decide) rfl⟩

/-- C3 counterexample: with file list `[foobar.py, bar.py, baz.py]` in folder
`bar/`, the primary command of the rendered button is the command of
`foobar.py` (not of `bar.py`), `bar.py` stays in the menu-item list, TWO menu
items are created, and the derived tool name `foobar` of the chosen file
differs from the tool name `bar` of the folder: the unescaped `re.search`
pattern `(bar)(.py|.mel)$` matches any basename ending in `bar` plus one
character plus the extension letters. -/
theorem claim_C3_counterexample :
    (add_popup_button_from_paths c3w c3d).map
        (fun r => (r.1.ui.buttons.map (fun b => (b.label, b.command)),
                   r.1.ui.menuItems.map (fun i => (i.label, i.command)),
                   r.2)) =
      Except.ok
        ([("foobar", "exec(open(\"root/anim/bar/foobar.py\").read())")],
         [("bar", "exec(open(\"root/anim/bar/bar.py\").read())"),
          ("baz", "exec(open(\"root/anim/bar/baz.py\").read())")],
         [("root/anim/bar", ["root/anim/bar/bar.py", "root/anim/bar/baz.py"])]) ∧
    (filter_py_mel "root/anim/bar/foobar.py").1 ≠ basename "root/anim/bar" ∧
    "exec(open(\"root/anim/bar/foobar.py\").read())" ≠
      "exec(open(\"root/anim/bar/bar.py\").read())" :=
  ⟨rfl, by decide, by decide⟩

/-- C3 (amended): the own script of the popup button is chosen as the FIRST file
of the list whose basename matches the search pattern `(<folder>)(.py|.mel)$`
- a suffix match, not equality of derived tool name.  When the folder `bar/`
contains exactly `bar.py` and `baz.py` (so no earlier file matches the
pattern), the primary command of the button equals the derived command of `bar.py`,
`bar.py` is removed from the menu-item list, and exactly one menu item is
created, for `baz.py`. -/
theorem claim_C3 (w : World) (icon : String) (fs2 : FSNode)
    (hi : find_icon w.fs w.st.icon_path "bar" = Except.ok (icon, fs2)) :
    ∃ w2 : World,
      add_popup_button_from_paths w
          [("root/anim/bar", ["root/anim/bar/bar.py", "root/anim/bar/baz.py"])] =
        Except.ok (w2, [("root/anim/bar", ["root/anim/bar/baz.py"])]) ∧
      w2.ui.buttons.map (fun b => (b.label, b.command)) =
        w.ui.buttons.map (fun b => (b.label, b.command)) ++
          [("bar", "exec(open(\"root/anim/bar/bar.py\").read())")] ∧
      w2.ui.menuItems.map (fun i => (i.label, i.command, i.sourceTag)) =
        w.ui.menuItems.map (fun i => (i.label, i.command, i.sourceTag)) ++
          [("baz", "exec(open(\"root/anim/bar/baz.py\").read())", "python")] := by
  have hbase : basename "root/anim/bar" = "bar" := rfl
  have hget : assocGet
      [("root/anim/bar", ["root/anim/bar/bar.py", "root/anim/bar/baz.py"])]
      "root/anim/bar" = some ["root/anim/bar/bar.py", "root/anim/bar/baz.py"] := rfl
  have hpick : List.find? (fun sp => popupNameMatch "bar" (basename sp))
      ["root/anim/bar/bar.py", "root/anim/bar/baz.py"] =
      some "root/anim/bar/bar.py" := rfl
  have hrem : listRemoveFirst "root/anim/bar/bar.py"
      ["root/anim/bar/bar.py", "root/anim/bar/baz.py"] =
      ["root/anim/bar/baz.py"] := rfl
  have hset : assocSet
      [("root/anim/bar", ["root/anim/bar/bar.py", "root/anim/bar/baz.py"])]
      "root/anim/bar" ["root/anim/bar/baz.py"] =
      [("root/anim/bar", ["root/anim/bar/baz.py"])] := rfl
  have hget2 : assocGet [("root/anim/bar", ["root/anim/bar/baz.py"])]
      "root/anim/bar" = some ["root/anim/bar/baz.py"] := rfl
  have hfil : filter_py_mel "root/anim/bar/bar.py" =
      ("bar", "exec(open(\"root/anim/bar/bar.py\").read())") := rfl
  have hfil2 : filter_py_mel "root/anim/bar/baz.py" =
      ("baz", "exec(open(\"root/anim/bar/baz.py\").read())") := rfl
  have hinit : initPyMatch "root/anim/bar/baz.py" = false := rfl
  refine
    ⟨{ fs := fs2,
       st := { w.st with
               popup_menus := assocSet w.st.popup_menus "bar" w.ui.nextId },
       ui := { w.ui with
               buttons := w.ui.buttons ++
                 [{ id := w.ui.nextId, label := "bar",
                    command := "exec(open(\"root/anim/bar/bar.py\").read())",
                    image := icon,
                    doubleClick :=
                      (filter_py_mel
                        (find_dcc_command fs2 "root/anim/bar/bar.py")).2,
                    parent := w.st.shelf }],
               menuItems := w.ui.menuItems ++
                 [{ id := w.ui.nextId + 1, label := "baz",
                    command := "exec(open(\"root/anim/bar/baz.py\").read())",
                    sourceTag := "python", parentMenu := w.ui.nextId }],
               nextId := w.ui.nextId + 2 } },
     ?_, ?_, ?_⟩
  · simp only [add_popup_button_from_paths, List.map, List.foldlM_cons,
      List.foldlM_nil, popupStep, hbase, hget, Option.getD, hpick, hrem, hset,
      add_buttons_from_path, buttonStep, hfil, hi, shelfButtonNew, popupFinish,
      hget2, popupMenuLoop, List.foldl_cons, List.foldl_nil, hinit, hfil2,
      menuItemNew, Bind.bind, Except.bind]
    rfl
  · simp
  · simp

/-- C3 witness: `claim_C3` applied to `c3w`, discharging the icon-resolution
hypothesis by evaluation. -/
theorem claim_C3_witness :
    ∃ w2 : World,
      add_popup_button_from_paths c3w
          [("root/anim/bar", ["root/anim/bar/bar.py", "root/anim/bar/baz.py"])] =
        Except.ok (w2, [("root/anim/bar", ["root/anim/bar/baz.py"])]) ∧
      w2.ui.buttons.map (fun b => (b.label, b.command)) =
        c3w.ui.buttons.map (fun b => (b.label, b.command)) ++
          [("bar", "exec(open(\"root/anim/bar/bar.py\").read())")] ∧
      w2.ui.menuItems.map (fun i => (i.label, i.command, i.sourceTag)) =
        c3w.ui.menuItems.map (fun i => (i.label, i.command, i.sourceTag)) ++
          [("baz", "exec(open(\"root/anim/bar/baz.py\").read())", "python")] :=
  claim_C3 c3w "root/icons/commandButton.png" c3w.fs rfl

